import Mathlib

/-!
Shallow embedding of `src/pdf2png/server.py` (the mcp-Pdf2png server).

The server exposes two tools, `pdf2png` and `pdf2png_upload`, dispatched by
`handle_call_tool`.  Both run the same pipeline: resolve the source (download
to a temp file when the source is an http(s) URL), rasterize the PDF,
write one `page_i.png` per page into the destination directory, optionally
upload each PNG and delete the local copies, and finally delete the temp file.

External effects are modelled by an `Env` oracle (outcome of the download,
the rasterizer's page count, per-save / per-upload / per-unlink outcomes and
the temporary file name chosen by `tempfile.NamedTemporaryFile`), the
filesystem by a list of existing file paths, and the side effects performed
by a chronological list of `Event`s.  A run returns a `RunResult`: the
outcome (the returned text or the exception raised), the final filesystem
and the event trace.
-/

namespace Pdf2png

/-- Python truthiness of an optional string argument:
`None` and the empty string are falsy, any other string is truthy. -/
def truthy : Option String → Bool
  | none => false
  | some s => !s.isEmpty

/-- `arguments.get(key)` on the argument mapping (a Python dict, modelled as
an association list; a dict has at most one entry per key). -/
def getArg (args : List (String × String)) (key : String) : Option String :=
  (args.find? (fun kv => kv.fst == key)).map (fun kv => kv.snd)

/-- Whether the first list of characters is an initial segment of the second. -/
def leadsWith : List Char → List Char → Bool
  | [], _ => true
  | _ :: _, [] => false
  | p :: ps, c :: cs => p == c && leadsWith ps cs

/-- `is_url` (server.py, line 18): the regex `^https?://` matches exactly
the strings starting with `http://` or `https://`. -/
def is_url (path : String) : Bool :=
  leadsWith "http://".toList path.toList || leadsWith "https://".toList path.toList

/-- `os.path.join(dir, name)` for a plain relative file name. -/
def joinPath (dir name : String) : String := dir ++ "/" ++ name

/-- File name of the page with 0-based index `i` (server.py lines 156 and
208): the f-string `page_` + (i+1) + `.png`, 1-based in document order. -/
def pageName (i : Nat) : String := "page_" ++ toString (i + 1) ++ ".png"

/-- Full output path of the page with 0-based index `i`. -/
def pagePath (dir : String) (i : Nat) : String := joinPath dir (pageName i)

/-- The n output paths `dir/page_1.png` … `dir/page_n.png`, in order. -/
def pageFiles (dir : String) (n : Nat) : List String :=
  (List.range n).map (pagePath dir)

/-- Creating (or overwriting) a file: the path set gains `p`. -/
def fsAdd (fs : List String) (p : String) : List String :=
  if p ∈ fs then fs else p :: fs

/-- `os.unlink p`: the path `p` no longer exists. -/
def fsRemove (fs : List String) (p : String) : List String :=
  fs.filter (fun q => decide (q ≠ p))

/-- Writing a batch of files in order. -/
def addAll (fs : List String) (ps : List String) : List String :=
  ps.foldl fsAdd fs

/-- The RFC 4648 base64 alphabet used by `base64.b64encode`. -/
def b64Alphabet : List Char :=
  "ABCDEFGHIJKLMNOPQRSTUVWXYZabcdefghijklmnopqrstuvwxyz0123456789+/".toList

def b64Char (n : Nat) : Char := b64Alphabet.getD n '='

/-- Encoding of one final group of 1, 2 or 3 bytes. -/
def b64Group : List Nat → List Char
  | [a] => [b64Char (a / 4), b64Char (a % 4 * 16), '=', '=']
  | [a, b] => [b64Char (a / 4), b64Char (a % 4 * 16 + b / 16), b64Char (b % 16 * 4), '=']
  | [a, b, c] =>
    [b64Char (a / 4), b64Char (a % 4 * 16 + b / 16), b64Char (b % 16 * 4 + c / 64),
      b64Char (c % 64)]
  | _ => []

/-- `base64.b64encode` on a byte list (bytes are `Nat`s below 256). -/
def b64encode : List Nat → List Char
  | a :: b :: c :: rest => b64Group [a, b, c] ++ b64encode rest
  | rest => b64Group rest

/-- UTF-8 bytes of one character (Python `str.encode()` default encoding). -/
def charBytes (c : Char) : List Nat :=
  let n := c.toNat
  if n < 128 then [n]
  else if n < 2048 then [192 + n / 64, 128 + n % 64]
  else if n < 65536 then [224 + n / 4096, 128 + n / 64 % 64, 128 + n % 64]
  else [240 + n / 262144, 128 + n / 4096 % 64, 128 + n / 64 % 64, 128 + n % 64]

/-- `s.encode()`: the UTF-8 bytes of a string. -/
def strBytes (s : String) : List Nat := (s.toList.map charBytes).flatten

/-- base64 of the UTF-8 encoding of a string, as a string. -/
def b64string (s : String) : String := String.mk (b64encode (strBytes s))

/-- Lines 47–51 of server.py: the `Authorization` header value `post_file`
attaches, `Basic` + base64 of `username:password`, present exactly when both
credentials are truthy; `none` means no Authorization header is sent. -/
def post_file_authorization (username password : Option String) : Option String :=
  if truthy username && truthy password then
    some ("Basic " ++ b64string (username.getD "" ++ ":" ++ password.getD ""))
  else none

/-- Line 163 of server.py: the success message of the `pdf2png` tool. -/
def convertMsg (n : Nat) (dir : String) : String :=
  "Successfully converted PDF to " ++ toString n ++ " PNG files in " ++ dir

/-- Lines 241–245 of server.py: the success message of `pdf2png_upload`;
the auth part depends only on the truthiness of `auth_username`. -/
def uploadMsg (n uploaded : Nat) (url : String) (auth_username : Option String) : String :=
  "Successfully converted PDF to " ++ toString n ++ " PNG files, uploaded "
    ++ toString uploaded ++ " of them to " ++ url
    ++ (if truthy auth_username then " with Basic Auth" else " without authentication")
    ++ ", and deleted local copies."

/-- Observable side effects, in chronological order. -/
inductive Event where
  | tempCreate (path : String)
  | downloadTo (url : String) (path : String) (ok : Bool)
  | mkdirDir (dir : String)
  | savePng (path : String)
  | uploadPost (url : String) (path : String) (auth : Option String) (ok : Bool)
  | unlinkAt (path : String) (ok : Bool)
deriving DecidableEq, Repr

/-- The exceptions a request can raise. -/
inductive Err where
  | missingArguments
  | unknownTool (name : String)
  | missingConvertFields
  | missingUploadFields
  | downloadFailed
  | conversionFailed
  | saveFailed (i : Nat)
  | noPages
deriving DecidableEq, Repr

/-- Oracle for the external world during one request: the temp file name
`tempfile.NamedTemporaryFile` picks, whether `download_file` raises, the
result of `convert_from_path` (`none` = raises, `some n` = n page images),
and per-call outcomes of `image.save`, `post_file` and `os.unlink`. -/
structure Env where
  tempName : String
  downloadOk : Bool
  pages : Option Nat
  saveOk : Nat → Bool
  uploadOk : Nat → Bool
  unlinkOk : String → Bool

/-- Outcome of one request: the value returned (the text content) or the
exception raised, the final filesystem, and the event trace. -/
structure RunResult where
  res : Except Err String
  fs : List String
  events : List Event
deriving Repr

/-- The write loop (lines 155–158 and 207–210): saves page `i` as
`dir/page_(i+1).png`, collecting output paths; a failing save raises,
leaving the prefix written. -/
def saveImages (env : Env) (dir : String) :
    List Nat → List String → List String →
    Except Err Unit × List String × List Event × List String
  | [], fs, acc => (Except.ok (), fs, [], acc)
  | i :: rest, fs, acc =>
    let p := pagePath dir i
    if env.saveOk i then
      match saveImages env dir rest (fsAdd fs p) (acc ++ [p]) with
      | (r, fs1, es, outs) => (r, fs1, Event.savePng p :: es, outs)
    else (Except.error (Err.saveFailed i), fs, [], acc)

/-- The upload loop (lines 219–232): one `post_file` per created PNG, in
order; a failure is caught and only the success count is affected. -/
def uploadLoop (env : Env) (url : String) (auth : Option String) :
    List String → Nat → List Event × Nat
  | [], _ => ([], 0)
  | p :: rest, k =>
    let ok := env.uploadOk k
    match uploadLoop env url auth rest (k + 1) with
    | (es, c) => (Event.uploadPost url p auth ok :: es, (if ok then 1 else 0) + c)

/-- The deletion loop (lines 235–239): `os.unlink` on each created PNG;
failures (including a missing file) are caught and only logged. -/
def deletePngs (env : Env) : List String → List String → List String × List Event
  | [], fs => (fs, [])
  | p :: rest, fs =>
    if p ∈ fs ∧ env.unlinkOk p then
      match deletePngs env rest (fsRemove fs p) with
      | (fs1, es) => (fs1, Event.unlinkAt p true :: es)
    else
      match deletePngs env rest fs with
      | (fs1, es) => (fs1, Event.unlinkAt p false :: es)

/-- The `finally` block (lines 167–172 and 249–255): delete the temp PDF if
one was created and still exists; a failure is caught and only logged. -/
def cleanupTemp (env : Env) (temp : Option String) (fs : List String) :
    List String × List Event :=
  match temp with
  | none => (fs, [])
  | some t =>
    if t ∈ fs then
      if env.unlinkOk t then (fsRemove fs t, [Event.unlinkAt t true])
      else (fs, [Event.unlinkAt t false])
    else (fs, [])

/-- Number of successful uploads among attempts `k, k+1, …, k+n-1`. -/
def countUploads (env : Env) : Nat → Nat → Nat
  | _, 0 => 0
  | k, m + 1 => (if env.uploadOk k then 1 else 0) + countUploads env (k + 1) m

/-- Wraps a try-block outcome with the `finally` temp cleanup. -/
def finallyWrap (env : Env) (temp : Option String) (r : Except Err String)
    (fs : List String) (evs : List Event) : RunResult :=
  match cleanupTemp env temp fs with
  | (fs1, es) => ⟨r, fs1, evs ++ es⟩

/-- Lines 151–165: rasterize, `os.makedirs`, write loop, success message of
the `pdf2png` tool (conversion failure skips `makedirs` and the writes). -/
def finishConvert (env : Env) (dir : String) (temp : Option String)
    (fs : List String) (evs : List Event) : RunResult :=
  match env.pages with
  | none => finallyWrap env temp (Except.error Err.conversionFailed) fs evs
  | some n =>
    match saveImages env dir (List.range n) fs [] with
    | (Except.error e, fs1, es, _) =>
      finallyWrap env temp (Except.error e) fs1 (evs ++ Event.mkdirDir dir :: es)
    | (Except.ok _, fs1, es, outs) =>
      finallyWrap env temp (Except.ok (convertMsg outs.length dir)) fs1
        (evs ++ Event.mkdirDir dir :: es)

/-- Try-block of `_convert_pdf_only` (lines 138–158): download the source to
a fresh temp file when it is a URL, then convert and write; the `finally`
cleanup runs on every exit path. -/
def convertBody (env : Env) (src dir : String) (fs0 : List String) : RunResult :=
  if is_url src then
    let t := env.tempName
    if env.downloadOk then
      finishConvert env dir (some t) (fsAdd fs0 t)
        [Event.tempCreate t, Event.downloadTo src t true]
    else
      finallyWrap env (some t) (Except.error Err.downloadFailed) (fsAdd fs0 t)
        [Event.tempCreate t, Event.downloadTo src t false]
  else finishConvert env dir none fs0 []

/-- `_convert_pdf_only` (lines 129–172): field validation (lines 131–135,
Python truthiness, so a missing and an empty argument fail alike), then the
pipeline. -/
def convertPdfOnly (env : Env) (args : List (String × String))
    (fs0 : List String) : RunResult :=
  let rf := getArg args "read_file_path"
  let wf := getArg args "write_folder_path"
  if truthy rf && truthy wf then
    convertBody env (rf.getD "") (wf.getD "") fs0
  else ⟨Except.error Err.missingConvertFields, fs0, []⟩

/-- Lines 204–247: rasterize, write, zero-page check, upload loop, deletion
loop and success message of the `pdf2png_upload` tool. -/
def finishUpload (env : Env) (url dir : String) (au ap : Option String)
    (temp : Option String) (fs : List String) (evs : List Event) : RunResult :=
  match env.pages with
  | none => finallyWrap env temp (Except.error Err.conversionFailed) fs evs
  | some n =>
    match saveImages env dir (List.range n) fs [] with
    | (Except.error e, fs1, es, _) =>
      finallyWrap env temp (Except.error e) fs1 (evs ++ Event.mkdirDir dir :: es)
    | (Except.ok _, fs1, es, created) =>
      if created.isEmpty then
        finallyWrap env temp (Except.error Err.noPages) fs1
          (evs ++ Event.mkdirDir dir :: es)
      else
        match uploadLoop env url (post_file_authorization au ap) created 0 with
        | (ues, uploaded) =>
          match deletePngs env created fs1 with
          | (fs2, des) =>
            finallyWrap env temp
              (Except.ok (uploadMsg created.length uploaded url au)) fs2
              (evs ++ Event.mkdirDir dir :: (es ++ ues ++ des))

/-- Try-block of `_convert_and_upload_pdf` (lines 189–247). -/
def uploadBody (env : Env) (src url dir : String) (au ap : Option String)
    (fs0 : List String) : RunResult :=
  if is_url src then
    let t := env.tempName
    if env.downloadOk then
      finishUpload env url dir au ap (some t) (fsAdd fs0 t)
        [Event.tempCreate t, Event.downloadTo src t true]
    else
      finallyWrap env (some t) (Except.error Err.downloadFailed) (fsAdd fs0 t)
        [Event.tempCreate t, Event.downloadTo src t false]
  else finishUpload env url dir au ap none fs0 []

/-- `_convert_and_upload_pdf` (lines 175–255): field validation (lines
177–184), then the pipeline with upload. -/
def convertAndUploadPdf (env : Env) (args : List (String × String))
    (fs0 : List String) : RunResult :=
  let rf := getArg args "read_file_path"
  let uu := getArg args "upload_url"
  let wf := getArg args "write_folder_path"
  if truthy rf && (truthy uu && truthy wf) then
    uploadBody env (rf.getD "") (uu.getD "") (wf.getD "")
      (getArg args "auth_username") (getArg args "auth_password") fs0
  else ⟨Except.error Err.missingUploadFields, fs0, []⟩

/-- `handle_call_tool` (lines 111–126): an empty (or missing) argument
mapping and an unknown tool name raise at once, otherwise dispatch. -/
def handle_call_tool (env : Env) (name : String) (args : List (String × String))
    (fs0 : List String) : RunResult :=
  if args.isEmpty then ⟨Except.error Err.missingArguments, fs0, []⟩
  else if name == "pdf2png" then convertPdfOnly env args fs0
  else if name == "pdf2png_upload" then convertAndUploadPdf env args fs0
  else ⟨Except.error (Err.unknownTool name), fs0, []⟩

/-- The paths written by `image.save`, in order, read off the trace. -/
def writesOf : List Event → List String
  | [] => []
  | Event.savePng p :: es => p :: writesOf es
  | _ :: es => writesOf es

/-- The paths POSTed by `post_file` (attempts, successful or not), in order. -/
def uploadPathsOf : List Event → List String
  | [] => []
  | Event.uploadPost _ p _ _ :: es => p :: uploadPathsOf es
  | _ :: es => uploadPathsOf es

/-- The temporary files created, in order. -/
def tempCreatesOf : List Event → List String
  | [] => []
  | Event.tempCreate p :: es => p :: tempCreatesOf es
  | _ :: es => tempCreatesOf es

/-- The per-upload event list, in attempt order: attempt `k + j` posts the
`j`-th path with the fixed Authorization header. -/
def uploadEvs (env : Env) (url : String) (auth : Option String) :
    List String → Nat → List Event
  | [], _ => []
  | p :: rest, k =>
    Event.uploadPost url p auth (env.uploadOk k) :: uploadEvs env url auth rest (k + 1)

/-! ### Filesystem lemmas -/

theorem mem_fsAdd {fs : List String} {p q : String} :
    p ∈ fsAdd fs q ↔ p = q ∨ p ∈ fs := by
  by_cases h : q ∈ fs
  · simp only [fsAdd, if_pos h]
    exact ⟨fun hp => Or.inr hp, fun hp => hp.elim (fun e => e ▸ h) id⟩
  · simp [fsAdd, if_neg h]

theorem fsAdd_of_mem {fs : List String} {q : String} (h : q ∈ fs) :
    fsAdd fs q = fs := by
  simp [fsAdd, h]

theorem mem_fsRemove {fs : List String} {p q : String} :
    p ∈ fsRemove fs q ↔ p ∈ fs ∧ p ≠ q := by
  simp [fsRemove, List.mem_filter]

theorem fsRemove_of_not_mem {fs : List String} {q : String} (h : q ∉ fs) :
    fsRemove fs q = fs := by
  unfold fsRemove
  apply List.filter_eq_self.mpr
  intro a ha
  simp only [decide_eq_true_eq]
  exact fun e => h (e ▸ ha)

theorem mem_addAll {ps fs : List String} {p : String} :
    p ∈ addAll fs ps ↔ p ∈ fs ∨ p ∈ ps := by
  induction ps generalizing fs with
  | nil => simp [addAll]
  | cons q rest ih =>
    show p ∈ addAll (fsAdd fs q) rest ↔ _
    rw [ih, mem_fsAdd]
    simp only [List.mem_cons]
    tauto

theorem addAll_of_subset {ps fs : List String} (h : ∀ p ∈ ps, p ∈ fs) :
    addAll fs ps = fs := by
  induction ps generalizing fs with
  | nil => rfl
  | cons q rest ih =>
    show addAll (fsAdd fs q) rest = fs
    rw [fsAdd_of_mem (h q (by simp))]
    exact ih (fun p hp => h p (by simp [hp]))

/-! ### Loop characterizations -/

theorem saveImages_ok {env : Env} {dir : String} {idxs : List Nat}
    (fs acc : List String) (h : ∀ i ∈ idxs, env.saveOk i = true) :
    saveImages env dir idxs fs acc =
      (Except.ok (), addAll fs (idxs.map (pagePath dir)),
        idxs.map (fun i => Event.savePng (pagePath dir i)),
        acc ++ idxs.map (pagePath dir)) := by
  induction idxs generalizing fs acc with
  | nil => simp [saveImages, addAll]
  | cons i rest ih =>
    have hi : env.saveOk i = true := h i (by simp)
    rw [saveImages, if_pos hi,
      ih (fsAdd fs (pagePath dir i)) (acc ++ [pagePath dir i])
        (fun j hj => h j (by simp [hj]))]
    simp [addAll, List.append_assoc]

theorem uploadLoop_eq (env : Env) (url : String) (auth : Option String)
    (paths : List String) (k : Nat) :
    uploadLoop env url auth paths k =
      (uploadEvs env url auth paths k, countUploads env k paths.length) := by
  induction paths generalizing k with
  | nil => simp [uploadLoop, uploadEvs, countUploads]
  | cons p rest ih => simp [uploadLoop, uploadEvs, countUploads, ih]

theorem mem_uploadEvs_auth {env : Env} {url : String} {auth : Option String}
    {paths : List String} {k : Nat} {u p : String} {a : Option String} {ok : Bool}
    (h : Event.uploadPost u p a ok ∈ uploadEvs env url auth paths k) : a = auth := by
  induction paths generalizing k with
  | nil => simp [uploadEvs] at h
  | cons q rest ih =>
    simp only [uploadEvs, List.mem_cons] at h
    rcases h with h | h
    · cases h
      rfl
    · exact ih h

theorem deletePngs_fst_mem {env : Env} {paths : List String} (fs : List String)
    {q : String} (h : ∀ p ∈ paths, env.unlinkOk p = true) :
    q ∈ (deletePngs env paths fs).1 ↔ q ∈ fs ∧ q ∉ paths := by
  induction paths generalizing fs with
  | nil => simp [deletePngs]
  | cons p rest ih =>
    have hp : env.unlinkOk p = true := h p (by simp)
    have ihr := fun fs' => ih fs' (fun r hr => h r (by simp [hr]))
    by_cases hm : p ∈ fs
    · have : (deletePngs env (p :: rest) fs).1 = (deletePngs env rest (fsRemove fs p)).1 := by
        rw [deletePngs, if_pos ⟨hm, hp⟩]
      rw [this, ihr (fsRemove fs p), mem_fsRemove]
      simp only [List.mem_cons]
      tauto
    · have : (deletePngs env (p :: rest) fs).1 = (deletePngs env rest fs).1 := by
        rw [deletePngs, if_neg (fun hc => hm hc.1)]
      rw [this, ihr fs]
      simp only [List.mem_cons]
      constructor
      · rintro ⟨hq, hr⟩
        exact ⟨hq, fun hc => hc.elim (fun e => hm (e ▸ hq)) hr⟩
      · rintro ⟨hq, hr⟩
        exact ⟨hq, fun hc => hr (Or.inr hc)⟩

theorem cleanupTemp_none (env : Env) (fs : List String) :
    cleanupTemp env none fs = (fs, []) := rfl

theorem mem_cleanupTemp_some {env : Env} {t : String} (fs : List String)
    {q : String} (h : env.unlinkOk t = true) :
    q ∈ (cleanupTemp env (some t) fs).1 ↔ q ∈ fs ∧ q ≠ t := by
  by_cases hm : t ∈ fs
  · have : (cleanupTemp env (some t) fs).1 = fsRemove fs t := by
      simp only [cleanupTemp]
      rw [if_pos hm, if_pos h]
    rw [this]
    exact mem_fsRemove
  · have : (cleanupTemp env (some t) fs).1 = fs := by
      simp only [cleanupTemp]
      rw [if_neg hm]
    rw [this]
    exact ⟨fun hq => ⟨hq, fun e => hm (e ▸ hq)⟩, fun hq => hq.1⟩

theorem not_mem_cleanupTemp_self {env : Env} {t : String} (fs : List String)
    (h : env.unlinkOk t = true) : t ∉ (cleanupTemp env (some t) fs).1 := by
  rw [mem_cleanupTemp_some fs h]
  simp

/-! ### Trace extraction lemmas -/

theorem writesOf_append (a b : List Event) :
    writesOf (a ++ b) = writesOf a ++ writesOf b := by
  induction a with
  | nil => rfl
  | cons e es ih => cases e <;> simp [writesOf, ih]

theorem uploadPathsOf_append (a b : List Event) :
    uploadPathsOf (a ++ b) = uploadPathsOf a ++ uploadPathsOf b := by
  induction a with
  | nil => rfl
  | cons e es ih => cases e <;> simp [uploadPathsOf, ih]

theorem tempCreatesOf_append (a b : List Event) :
    tempCreatesOf (a ++ b) = tempCreatesOf a ++ tempCreatesOf b := by
  induction a with
  | nil => rfl
  | cons e es ih => cases e <;> simp [tempCreatesOf, ih]

theorem writesOf_saveEvs (dir : String) (idxs : List Nat) :
    writesOf (idxs.map (fun i => Event.savePng (pagePath dir i))) =
      idxs.map (pagePath dir) := by
  induction idxs with
  | nil => rfl
  | cons i rest ih => simp [writesOf, ih]

theorem uploadPathsOf_saveEvs (dir : String) (idxs : List Nat) :
    uploadPathsOf (idxs.map (fun i => Event.savePng (pagePath dir i))) = [] := by
  induction idxs with
  | nil => rfl
  | cons i rest ih => simp [uploadPathsOf, ih]

theorem tempCreatesOf_saveEvs (dir : String) (idxs : List Nat) :
    tempCreatesOf (idxs.map (fun i => Event.savePng (pagePath dir i))) = [] := by
  induction idxs with
  | nil => rfl
  | cons i rest ih => simp [tempCreatesOf, ih]

theorem uploadPathsOf_uploadEvs (env : Env) (url : String) (auth : Option String)
    (paths : List String) (k : Nat) :
    uploadPathsOf (uploadEvs env url auth paths k) = paths := by
  induction paths generalizing k with
  | nil => rfl
  | cons p rest ih => simp [uploadEvs, uploadPathsOf, ih]

theorem writesOf_uploadEvs (env : Env) (url : String) (auth : Option String)
    (paths : List String) (k : Nat) :
    writesOf (uploadEvs env url auth paths k) = [] := by
  induction paths generalizing k with
  | nil => rfl
  | cons p rest ih => simp [uploadEvs, writesOf, ih]

theorem tempCreatesOf_uploadEvs (env : Env) (url : String) (auth : Option String)
    (paths : List String) (k : Nat) :
    tempCreatesOf (uploadEvs env url auth paths k) = [] := by
  induction paths generalizing k with
  | nil => rfl
  | cons p rest ih => simp [uploadEvs, tempCreatesOf, ih]

theorem mem_deletePngs_events {env : Env} {paths : List String} {fs : List String}
    {e : Event} (he : e ∈ (deletePngs env paths fs).2) :
    ∃ p b, e = Event.unlinkAt p b := by
  induction paths generalizing fs with
  | nil => simp [deletePngs] at he
  | cons p rest ih =>
    by_cases hc : p ∈ fs ∧ env.unlinkOk p
    · have h2 : (deletePngs env (p :: rest) fs).2 =
          Event.unlinkAt p true :: (deletePngs env rest (fsRemove fs p)).2 := by
        rw [deletePngs, if_pos hc]
      rw [h2] at he
      rcases List.mem_cons.mp he with he1 | he2
      · exact ⟨p, true, he1⟩
      · exact ih he2
    · have h2 : (deletePngs env (p :: rest) fs).2 =
          Event.unlinkAt p false :: (deletePngs env rest fs).2 := by
        rw [deletePngs, if_neg hc]
      rw [h2] at he
      rcases List.mem_cons.mp he with he1 | he2
      · exact ⟨p, false, he1⟩
      · exact ih he2

theorem mem_cleanupTemp_events {env : Env} {temp : Option String} {fs : List String}
    {e : Event} (he : e ∈ (cleanupTemp env temp fs).2) :
    ∃ p b, e = Event.unlinkAt p b := by
  match temp with
  | none => simp [cleanupTemp] at he
  | some t =>
    simp only [cleanupTemp] at he
    by_cases hm : t ∈ fs
    · rw [if_pos hm] at he
      by_cases hu : env.unlinkOk t = true
      · rw [if_pos hu] at he
        exact ⟨t, true, by simpa using he⟩
      · rw [if_neg hu] at he
        exact ⟨t, false, by simpa using he⟩
    · rw [if_neg hm] at he
      simp at he

theorem writesOf_of_unlink {evs : List Event}
    (h : ∀ e ∈ evs, ∃ p b, e = Event.unlinkAt p b) : writesOf evs = [] := by
  induction evs with
  | nil => rfl
  | cons e es ih =>
    obtain ⟨p, b, rfl⟩ := h e (by simp)
    simpa [writesOf] using ih (fun e' he' => h e' (by simp [he']))

theorem uploadPathsOf_of_unlink {evs : List Event}
    (h : ∀ e ∈ evs, ∃ p b, e = Event.unlinkAt p b) : uploadPathsOf evs = [] := by
  induction evs with
  | nil => rfl
  | cons e es ih =>
    obtain ⟨p, b, rfl⟩ := h e (by simp)
    simpa [uploadPathsOf] using ih (fun e' he' => h e' (by simp [he']))

theorem tempCreatesOf_of_unlink {evs : List Event}
    (h : ∀ e ∈ evs, ∃ p b, e = Event.unlinkAt p b) : tempCreatesOf evs = [] := by
  induction evs with
  | nil => rfl
  | cons e es ih =>
    obtain ⟨p, b, rfl⟩ := h e (by simp)
    simpa [tempCreatesOf] using ih (fun e' he' => h e' (by simp [he']))

/-! ### `finallyWrap` projections -/

theorem finallyWrap_res (env : Env) (temp : Option String) (r : Except Err String)
    (fs : List String) (evs : List Event) : (finallyWrap env temp r fs evs).res = r := rfl

theorem finallyWrap_fs (env : Env) (temp : Option String) (r : Except Err String)
    (fs : List String) (evs : List Event) :
    (finallyWrap env temp r fs evs).fs = (cleanupTemp env temp fs).1 := rfl

theorem finallyWrap_events (env : Env) (temp : Option String) (r : Except Err String)
    (fs : List String) (evs : List Event) :
    (finallyWrap env temp r fs evs).events = evs ++ (cleanupTemp env temp fs).2 := rfl

/-! ### Pipeline characterizations -/

/-- The save-loop events of an n-page conversion. -/
def saveEvs (dir : String) (n : Nat) : List Event :=
  (List.range n).map (fun i => Event.savePng (pagePath dir i))

theorem finishConvert_ok {env : Env} (dir : String) (temp : Option String)
    (fs : List String) (evs : List Event) {n : Nat}
    (hp : env.pages = some n) (hs : ∀ i, env.saveOk i = true) :
    finishConvert env dir temp fs evs =
      finallyWrap env temp (Except.ok (convertMsg n dir)) (addAll fs (pageFiles dir n))
        (evs ++ Event.mkdirDir dir :: saveEvs dir n) := by
  simp only [finishConvert, hp]
  rw [saveImages_ok fs [] (fun i _ => hs i)]
  simp [pageFiles, saveEvs]

theorem finishConvert_fail {env : Env} (dir : String) (temp : Option String)
    (fs : List String) (evs : List Event) (hp : env.pages = none) :
    finishConvert env dir temp fs evs =
      finallyWrap env temp (Except.error Err.conversionFailed) fs evs := by
  simp only [finishConvert, hp]

theorem finishUpload_fail {env : Env} (url dir : String) (au ap : Option String)
    (temp : Option String) (fs : List String) (evs : List Event)
    (hp : env.pages = none) :
    finishUpload env url dir au ap temp fs evs =
      finallyWrap env temp (Except.error Err.conversionFailed) fs evs := by
  simp only [finishUpload, hp]

theorem finishUpload_zero {env : Env} (url dir : String) (au ap : Option String)
    (temp : Option String) (fs : List String) (evs : List Event)
    (hp : env.pages = some 0) :
    finishUpload env url dir au ap temp fs evs =
      finallyWrap env temp (Except.error Err.noPages) fs
        (evs ++ [Event.mkdirDir dir]) := by
  simp only [finishUpload, hp]
  rw [saveImages_ok fs [] (fun i hi => by simp at hi)]
  simp [addAll]

theorem finishUpload_ok {env : Env} (url dir : String) (au ap : Option String)
    (temp : Option String) (fs : List String) (evs : List Event) {n : Nat}
    (hp : env.pages = some n) (hn : n ≠ 0) (hs : ∀ i, env.saveOk i = true) :
    finishUpload env url dir au ap temp fs evs =
      finallyWrap env temp
        (Except.ok (uploadMsg n (countUploads env 0 n) url au))
        (deletePngs env (pageFiles dir n) (addAll fs (pageFiles dir n))).1
        (evs ++ Event.mkdirDir dir ::
          (saveEvs dir n
            ++ uploadEvs env url (post_file_authorization au ap) (pageFiles dir n) 0
            ++ (deletePngs env (pageFiles dir n) (addAll fs (pageFiles dir n))).2)) := by
  have hne : ((List.range n).map (pagePath dir)).isEmpty = false := by
    simp [List.isEmpty_iff, List.map_eq_nil_iff, List.range_eq_nil, hn]
  simp only [finishUpload, hp]
  rw [saveImages_ok fs [] (fun i _ => hs i)]
  simp only [List.nil_append, hne, Bool.false_eq_true, if_false, uploadLoop_eq]
  simp [pageFiles, saveEvs, uploadMsg]

theorem convertBody_local {env : Env} {src : String} (dir : String)
    (fs0 : List String) (h : is_url src = false) :
    convertBody env src dir fs0 = finishConvert env dir none fs0 [] := by
  simp [convertBody, h]

theorem convertBody_url {env : Env} {src : String} (dir : String)
    (fs0 : List String) (h : is_url src = true) (hd : env.downloadOk = true) :
    convertBody env src dir fs0 =
      finishConvert env dir (some env.tempName) (fsAdd fs0 env.tempName)
        [Event.tempCreate env.tempName, Event.downloadTo src env.tempName true] := by
  simp [convertBody, h, hd]

theorem convertBody_url_dlfail {env : Env} {src : String} (dir : String)
    (fs0 : List String) (h : is_url src = true) (hd : env.downloadOk = false) :
    convertBody env src dir fs0 =
      finallyWrap env (some env.tempName) (Except.error Err.downloadFailed)
        (fsAdd fs0 env.tempName)
        [Event.tempCreate env.tempName, Event.downloadTo src env.tempName false] := by
  simp [convertBody, h, hd]

theorem uploadBody_local {env : Env} {src : String} (url dir : String)
    (au ap : Option String) (fs0 : List String) (h : is_url src = false) :
    uploadBody env src url dir au ap fs0 = finishUpload env url dir au ap none fs0 [] := by
  simp [uploadBody, h]

theorem uploadBody_url {env : Env} {src : String} (url dir : String)
    (au ap : Option String) (fs0 : List String) (h : is_url src = true)
    (hd : env.downloadOk = true) :
    uploadBody env src url dir au ap fs0 =
      finishUpload env url dir au ap (some env.tempName) (fsAdd fs0 env.tempName)
        [Event.tempCreate env.tempName, Event.downloadTo src env.tempName true] := by
  simp [uploadBody, h, hd]

theorem uploadBody_url_dlfail {env : Env} {src : String} (url dir : String)
    (au ap : Option String) (fs0 : List String) (h : is_url src = true)
    (hd : env.downloadOk = false) :
    uploadBody env src url dir au ap fs0 =
      finallyWrap env (some env.tempName) (Except.error Err.downloadFailed)
        (fsAdd fs0 env.tempName)
        [Event.tempCreate env.tempName, Event.downloadTo src env.tempName false] := by
  simp [uploadBody, h, hd]

theorem convertPdfOnly_valid {env : Env} {args : List (String × String)}
    (fs0 : List String) (h1 : truthy (getArg args "read_file_path") = true)
    (h2 : truthy (getArg args "write_folder_path") = true) :
    convertPdfOnly env args fs0 =
      convertBody env ((getArg args "read_file_path").getD "")
        ((getArg args "write_folder_path").getD "") fs0 := by
  simp [convertPdfOnly, h1, h2]

theorem convertPdfOnly_invalid {env : Env} {args : List (String × String)}
    (fs0 : List String)
    (h : (truthy (getArg args "read_file_path")
      && truthy (getArg args "write_folder_path")) = false) :
    convertPdfOnly env args fs0 =
      ⟨Except.error Err.missingConvertFields, fs0, []⟩ := by
  simp only [convertPdfOnly, h, Bool.false_eq_true, if_false]

theorem convertAndUploadPdf_valid {env : Env} {args : List (String × String)}
    (fs0 : List String) (h1 : truthy (getArg args "read_file_path") = true)
    (h2 : truthy (getArg args "upload_url") = true)
    (h3 : truthy (getArg args "write_folder_path") = true) :
    convertAndUploadPdf env args fs0 =
      uploadBody env ((getArg args "read_file_path").getD "")
        ((getArg args "upload_url").getD "")
        ((getArg args "write_folder_path").getD "")
        (getArg args "auth_username") (getArg args "auth_password") fs0 := by
  simp [convertAndUploadPdf, h1, h2, h3]

theorem convertAndUploadPdf_invalid {env : Env} {args : List (String × String)}
    (fs0 : List String)
    (h : (truthy (getArg args "read_file_path")
      && (truthy (getArg args "upload_url")
        && truthy (getArg args "write_folder_path"))) = false) :
    convertAndUploadPdf env args fs0 =
      ⟨Except.error Err.missingUploadFields, fs0, []⟩ := by
  simp only [convertAndUploadPdf, h, Bool.false_eq_true, if_false]

theorem handle_call_tool_convert {env : Env} {args : List (String × String)}
    (fs0 : List String) (h : args.isEmpty = false) :
    handle_call_tool env "pdf2png" args fs0 = convertPdfOnly env args fs0 := by
  simp [handle_call_tool, h]

theorem handle_call_tool_upload {env : Env} {args : List (String × String)}
    (fs0 : List String) (h : args.isEmpty = false) :
    handle_call_tool env "pdf2png_upload" args fs0 = convertAndUploadPdf env args fs0 := by
  simp [handle_call_tool, h]

/-! ### Further helpers -/

theorem isEmpty_false_of_ne_nil {α : Type} {l : List α} (h : l ≠ []) :
    l.isEmpty = false := by
  cases l with
  | nil => exact absurd rfl h
  | cons a l => rfl

theorem truthy_getArg_isEmpty_false {args : List (String × String)} {k : String}
    (h : truthy (getArg args k) = true) : args.isEmpty = false := by
  cases args with
  | nil => simp [getArg, truthy] at h
  | cons a l => rfl

theorem finishConvert_zero {env : Env} (dir : String) (temp : Option String)
    (fs : List String) (evs : List Event) (hp : env.pages = some 0) :
    finishConvert env dir temp fs evs =
      finallyWrap env temp (Except.ok (convertMsg 0 dir)) fs
        (evs ++ [Event.mkdirDir dir]) := by
  simp only [finishConvert, hp]
  rw [saveImages_ok fs [] (fun i hi => by simp at hi)]
  simp [addAll, convertMsg]

/-- The write loop emits only `savePng` events (over the written indices). -/
theorem saveImages_events_shape (env : Env) (dir : String) (idxs : List Nat)
    (fs acc : List String) :
    ∃ js : List Nat, (saveImages env dir idxs fs acc).2.2.1 =
      js.map (fun i => Event.savePng (pagePath dir i)) := by
  induction idxs generalizing fs acc with
  | nil => exact ⟨[], rfl⟩
  | cons i rest ih =>
    by_cases hi : env.saveOk i = true
    · obtain ⟨js, hjs⟩ := ih (fsAdd fs (pagePath dir i)) (acc ++ [pagePath dir i])
      refine ⟨i :: js, ?_⟩
      have h2 : (saveImages env dir (i :: rest) fs acc).2.2.1 =
          Event.savePng (pagePath dir i) ::
            (saveImages env dir rest (fsAdd fs (pagePath dir i))
              (acc ++ [pagePath dir i])).2.2.1 := by
        rw [saveImages, if_pos hi]
      rw [h2, hjs]
      rfl
    · refine ⟨[], ?_⟩
      have h2 : (saveImages env dir (i :: rest) fs acc).2.2.1 = [] := by
        rw [saveImages, if_neg hi]
      rw [h2]
      rfl

/-- `finishUpload`: every upload event not already in `evs` carries the
`post_file` Authorization header; no temp file is created; a temp file whose
deletion succeeds is gone from the final filesystem. -/
theorem finishUpload_facts (env : Env) (url dir : String) (au ap : Option String)
    (temp : Option String) (fs : List String) (evs : List Event) :
    (∀ u p a ok, Event.uploadPost u p a ok ∈
        (finishUpload env url dir au ap temp fs evs).events →
      Event.uploadPost u p a ok ∈ evs ∨ a = post_file_authorization au ap) ∧
    tempCreatesOf (finishUpload env url dir au ap temp fs evs).events =
      tempCreatesOf evs ∧
    (∀ t, temp = some t → env.unlinkOk t = true →
      t ∉ (finishUpload env url dir au ap temp fs evs).fs) := by
  have hclean : ∀ t (fs' : List String), temp = some t → env.unlinkOk t = true →
      t ∉ (cleanupTemp env temp fs').1 := by
    rintro t fs' rfl hu
    exact not_mem_cleanupTemp_self fs' hu
  cases hp : env.pages with
  | none =>
    rw [finishUpload_fail url dir au ap temp fs evs hp]
    refine ⟨?_, ?_, ?_⟩
    · intro u p a ok he
      rw [finallyWrap_events] at he
      rcases List.mem_append.mp he with h1 | h2
      · exact Or.inl h1
      · obtain ⟨q, b, hqb⟩ := mem_cleanupTemp_events h2
        simp at hqb
    · rw [finallyWrap_events, tempCreatesOf_append,
        tempCreatesOf_of_unlink (fun e he => mem_cleanupTemp_events he)]
      simp
    · intro t ht hu
      rw [finallyWrap_fs]
      exact hclean t fs ht hu
  | some n =>
    simp only [finishUpload, hp]
    obtain ⟨js, hjs⟩ := saveImages_events_shape env dir (List.range n) fs []
    rcases hsv : saveImages env dir (List.range n) fs [] with ⟨r, fs1, es, outs⟩
    rw [hsv] at hjs
    simp only at hjs
    cases r with
    | error e =>
      refine ⟨?_, ?_, ?_⟩
      · intro u p a ok he
        rw [finallyWrap_events] at he
        rcases List.mem_append.mp he with h1 | h2
        · rcases List.mem_append.mp h1 with h3 | h4
          · exact Or.inl h3
          · rcases List.mem_cons.mp h4 with h5 | h6
            · simp at h5
            · rw [hjs] at h6
              simp only [List.mem_map] at h6
              obtain ⟨j, _, hj⟩ := h6
              simp at hj
        · obtain ⟨q, b, hqb⟩ := mem_cleanupTemp_events h2
          simp at hqb
      · rw [finallyWrap_events, tempCreatesOf_append,
          tempCreatesOf_of_unlink (fun e he => mem_cleanupTemp_events he),
          tempCreatesOf_append, hjs]
        simp [tempCreatesOf, tempCreatesOf_saveEvs]
      · intro t ht hu
        rw [finallyWrap_fs]
        exact hclean t fs1 ht hu
    | ok v =>
      by_cases hemp : outs.isEmpty = true
      · simp only [hemp, if_true]
        refine ⟨?_, ?_, ?_⟩
        · intro u p a ok he
          rw [finallyWrap_events] at he
          rcases List.mem_append.mp he with h1 | h2
          · rcases List.mem_append.mp h1 with h3 | h4
            · exact Or.inl h3
            · rcases List.mem_cons.mp h4 with h5 | h6
              · simp at h5
              · rw [hjs] at h6
                simp only [List.mem_map] at h6
                obtain ⟨j, _, hj⟩ := h6
                simp at hj
          · obtain ⟨q, b, hqb⟩ := mem_cleanupTemp_events h2
            simp at hqb
        · rw [finallyWrap_events, tempCreatesOf_append,
            tempCreatesOf_of_unlink (fun e he => mem_cleanupTemp_events he),
            tempCreatesOf_append, hjs]
          simp [tempCreatesOf, tempCreatesOf_saveEvs]
        · intro t ht hu
          rw [finallyWrap_fs]
          exact hclean t fs1 ht hu
      · simp only [hemp, Bool.false_eq_true, if_false, uploadLoop_eq]
        refine ⟨?_, ?_, ?_⟩
        · intro u p a ok he
          rw [finallyWrap_events] at he
          rcases List.mem_append.mp he with h1 | h2
          · rcases List.mem_append.mp h1 with h3 | h4
            · exact Or.inl h3
            · rcases List.mem_cons.mp h4 with h5 | h6
              · simp at h5
              · rcases List.mem_append.mp h6 with h7 | h8
                · rcases List.mem_append.mp h7 with h9 | h10
                  · rw [hjs] at h9
                    simp only [List.mem_map] at h9
                    obtain ⟨j, _, hj⟩ := h9
                    simp at hj
                  · exact Or.inr (mem_uploadEvs_auth h10)
                · obtain ⟨q, b, hqb⟩ := mem_deletePngs_events h8
                  simp at hqb
          · obtain ⟨q, b, hqb⟩ := mem_cleanupTemp_events h2
            simp at hqb
        · rw [finallyWrap_events]
          simp [tempCreatesOf, tempCreatesOf_append, tempCreatesOf_saveEvs,
            tempCreatesOf_uploadEvs, hjs,
            tempCreatesOf_of_unlink (fun e he => mem_deletePngs_events he),
            tempCreatesOf_of_unlink (fun e he => mem_cleanupTemp_events he)]
        · intro t ht hu
          rw [finallyWrap_fs]
          exact hclean t _ ht hu

/-- `finishConvert`: no temp file is created; no uploads happen; a temp file
whose deletion succeeds is gone from the final filesystem. -/
theorem finishConvert_facts (env : Env) (dir : String) (temp : Option String)
    (fs : List String) (evs : List Event) :
    tempCreatesOf (finishConvert env dir temp fs evs).events = tempCreatesOf evs ∧
    (∀ t, temp = some t → env.unlinkOk t = true →
      t ∉ (finishConvert env dir temp fs evs).fs) := by
  have hclean : ∀ t (fs' : List String), temp = some t → env.unlinkOk t = true →
      t ∉ (cleanupTemp env temp fs').1 := by
    rintro t fs' rfl hu
    exact not_mem_cleanupTemp_self fs' hu
  cases hp : env.pages with
  | none =>
    rw [finishConvert_fail dir temp fs evs hp]
    refine ⟨?_, ?_⟩
    · rw [finallyWrap_events, tempCreatesOf_append,
        tempCreatesOf_of_unlink (fun e he => mem_cleanupTemp_events he)]
      simp
    · intro t ht hu
      rw [finallyWrap_fs]
      exact hclean t fs ht hu
  | some n =>
    simp only [finishConvert, hp]
    obtain ⟨js, hjs⟩ := saveImages_events_shape env dir (List.range n) fs []
    rcases hsv : saveImages env dir (List.range n) fs [] with ⟨r, fs1, es, outs⟩
    rw [hsv] at hjs
    simp only at hjs
    cases r with
    | error e =>
      refine ⟨?_, ?_⟩
      · rw [finallyWrap_events, tempCreatesOf_append,
          tempCreatesOf_of_unlink (fun e he => mem_cleanupTemp_events he),
          tempCreatesOf_append, hjs]
        simp [tempCreatesOf, tempCreatesOf_saveEvs]
      · intro t ht hu
        rw [finallyWrap_fs]
        exact hclean t fs1 ht hu
    | ok v =>
      refine ⟨?_, ?_⟩
      · rw [finallyWrap_events, tempCreatesOf_append,
          tempCreatesOf_of_unlink (fun e he => mem_cleanupTemp_events he),
          tempCreatesOf_append, hjs]
        simp [tempCreatesOf, tempCreatesOf_saveEvs]
      · intro t ht hu
        rw [finallyWrap_fs]
        exact hclean t fs1 ht hu

/-- `uploadBody`: every upload event carries the `post_file` Authorization
header; with a URL source exactly one temp file is created and, if its
deletion succeeds, it is absent from the final filesystem. -/
theorem uploadBody_facts (env : Env) (src url dir : String) (au ap : Option String)
    (fs0 : List String) :
    (∀ u p a ok, Event.uploadPost u p a ok ∈
        (uploadBody env src url dir au ap fs0).events →
      a = post_file_authorization au ap) ∧
    (is_url src = true →
      tempCreatesOf (uploadBody env src url dir au ap fs0).events = [env.tempName]) ∧
    (is_url src = true → env.unlinkOk env.tempName = true →
      env.tempName ∉ (uploadBody env src url dir au ap fs0).fs) := by
  by_cases hurl : is_url src = true
  · cases hd : env.downloadOk with
    | false =>
      rw [uploadBody_url_dlfail url dir au ap fs0 hurl hd]
      refine ⟨?_, ?_, ?_⟩
      · intro u p a ok he
        rw [finallyWrap_events] at he
        rcases List.mem_append.mp he with h1 | h2
        · simp at h1
        · obtain ⟨q, b, hqb⟩ := mem_cleanupTemp_events h2
          simp at hqb
      · intro _
        rw [finallyWrap_events, tempCreatesOf_append,
          tempCreatesOf_of_unlink (fun e he => mem_cleanupTemp_events he)]
        simp [tempCreatesOf]
      · intro _ hu
        rw [finallyWrap_fs]
        exact not_mem_cleanupTemp_self _ hu
    | true =>
      rw [uploadBody_url url dir au ap fs0 hurl hd]
      obtain ⟨hup, htc, hfs⟩ := finishUpload_facts env url dir au ap
        (some env.tempName) (fsAdd fs0 env.tempName)
        [Event.tempCreate env.tempName, Event.downloadTo src env.tempName true]
      refine ⟨?_, ?_, ?_⟩
      · intro u p a ok he
        rcases hup u p a ok he with h1 | h2
        · simp at h1
        · exact h2
      · intro _
        rw [htc]
        simp [tempCreatesOf]
      · intro _ hu
        exact hfs env.tempName rfl hu
  · simp only [Bool.not_eq_true] at hurl
    rw [uploadBody_local url dir au ap fs0 hurl]
    obtain ⟨hup, htc, hfs⟩ := finishUpload_facts env url dir au ap none fs0 []
    refine ⟨?_, ?_, ?_⟩
    · intro u p a ok he
      rcases hup u p a ok he with h1 | h2
      · simp at h1
      · exact h2
    · intro hc
      rw [hurl] at hc
      simp at hc
    · intro hc
      rw [hurl] at hc
      simp at hc

/-- `convertBody`: with a URL source exactly one temp file is created and,
if its deletion succeeds, it is absent from the final filesystem. -/
theorem convertBody_facts (env : Env) (src dir : String) (fs0 : List String) :
    (is_url src = true →
      tempCreatesOf (convertBody env src dir fs0).events = [env.tempName]) ∧
    (is_url src = true → env.unlinkOk env.tempName = true →
      env.tempName ∉ (convertBody env src dir fs0).fs) := by
  by_cases hurl : is_url src = true
  · cases hd : env.downloadOk with
    | false =>
      rw [convertBody_url_dlfail dir fs0 hurl hd]
      refine ⟨?_, ?_⟩
      · intro _
        rw [finallyWrap_events, tempCreatesOf_append,
          tempCreatesOf_of_unlink (fun e he => mem_cleanupTemp_events he)]
        simp [tempCreatesOf]
      · intro _ hu
        rw [finallyWrap_fs]
        exact not_mem_cleanupTemp_self _ hu
    | true =>
      rw [convertBody_url dir fs0 hurl hd]
      obtain ⟨htc, hfs⟩ := finishConvert_facts env dir (some env.tempName)
        (fsAdd fs0 env.tempName)
        [Event.tempCreate env.tempName, Event.downloadTo src env.tempName true]
      refine ⟨?_, ?_⟩
      · intro _
        rw [htc]
        simp [tempCreatesOf]
      · intro _ hu
        exact hfs env.tempName rfl hu
  · refine ⟨fun hc => absurd hc hurl, fun hc => absurd hc hurl⟩

/-! ### The reported outcome never depends on `os.unlink` outcomes -/

theorem saveImages_congr {e1 e2 : Env} (dir : String) (idxs : List Nat)
    (fs acc : List String) (h : e1.saveOk = e2.saveOk) :
    saveImages e1 dir idxs fs acc = saveImages e2 dir idxs fs acc := by
  induction idxs generalizing fs acc with
  | nil => rfl
  | cons i rest ih => simp [saveImages, h, ih]

theorem uploadLoop_congr {e1 e2 : Env} (url : String) (auth : Option String)
    (paths : List String) (k : Nat) (h : e1.uploadOk = e2.uploadOk) :
    uploadLoop e1 url auth paths k = uploadLoop e2 url auth paths k := by
  induction paths generalizing k with
  | nil => rfl
  | cons p rest ih => simp [uploadLoop, h, ih]

theorem finishConvert_res_congr {e1 e2 : Env} (dir : String) (temp : Option String)
    (fs : List String) (evs : List Event)
    (hpg : e1.pages = e2.pages) (hsk : e1.saveOk = e2.saveOk) :
    (finishConvert e1 dir temp fs evs).res = (finishConvert e2 dir temp fs evs).res := by
  simp only [finishConvert]
  cases hp : e2.pages with
  | none => simp [hpg, hp, finallyWrap_res]
  | some n =>
    simp only [hpg, hp]
    rw [saveImages_congr dir (List.range n) fs [] hsk]
    rcases hsv : saveImages e2 dir (List.range n) fs [] with ⟨r, fs1, es, outs⟩
    cases r <;> simp [finallyWrap_res]

theorem finishUpload_res_congr {e1 e2 : Env} (url dir : String) (au ap : Option String)
    (temp : Option String) (fs : List String) (evs : List Event)
    (hpg : e1.pages = e2.pages) (hsk : e1.saveOk = e2.saveOk)
    (huk : e1.uploadOk = e2.uploadOk) :
    (finishUpload e1 url dir au ap temp fs evs).res =
      (finishUpload e2 url dir au ap temp fs evs).res := by
  simp only [finishUpload]
  cases hp : e2.pages with
  | none => simp [hpg, hp, finallyWrap_res]
  | some n =>
    simp only [hpg, hp]
    rw [saveImages_congr dir (List.range n) fs [] hsk]
    rcases hsv : saveImages e2 dir (List.range n) fs [] with ⟨r, fs1, es, outs⟩
    cases r with
    | error e => simp [finallyWrap_res]
    | ok u =>
      by_cases hemp : outs.isEmpty = true <;>
        simp [hemp, finallyWrap_res,
          uploadLoop_congr url (post_file_authorization au ap) outs 0 huk]

theorem convertBody_res_congr {e1 e2 : Env} (src dir : String) (fs0 : List String)
    (htm : e1.tempName = e2.tempName) (hdl : e1.downloadOk = e2.downloadOk)
    (hpg : e1.pages = e2.pages) (hsk : e1.saveOk = e2.saveOk) :
    (convertBody e1 src dir fs0).res = (convertBody e2 src dir fs0).res := by
  simp only [convertBody, htm, hdl]
  by_cases hu : is_url src = true
  · cases hd : e2.downloadOk <;>
      simp [hu, hd, finallyWrap_res, finishConvert_res_congr dir _ _ _ hpg hsk]
  · simp only [Bool.not_eq_true] at hu
    simp [hu, finishConvert_res_congr dir _ _ _ hpg hsk]

theorem uploadBody_res_congr {e1 e2 : Env} (src url dir : String)
    (au ap : Option String) (fs0 : List String)
    (htm : e1.tempName = e2.tempName) (hdl : e1.downloadOk = e2.downloadOk)
    (hpg : e1.pages = e2.pages) (hsk : e1.saveOk = e2.saveOk)
    (huk : e1.uploadOk = e2.uploadOk) :
    (uploadBody e1 src url dir au ap fs0).res =
      (uploadBody e2 src url dir au ap fs0).res := by
  simp only [uploadBody, htm, hdl]
  by_cases hu : is_url src = true
  · cases hd : e2.downloadOk <;>
      simp [hu, hd, finallyWrap_res, finishUpload_res_congr url dir au ap _ _ _ hpg hsk huk]
  · simp only [Bool.not_eq_true] at hu
    simp [hu, finishUpload_res_congr url dir au ap _ _ _ hpg hsk huk]

theorem convertPdfOnly_res_congr {e1 e2 : Env} (args : List (String × String))
    (fs0 : List String)
    (htm : e1.tempName = e2.tempName) (hdl : e1.downloadOk = e2.downloadOk)
    (hpg : e1.pages = e2.pages) (hsk : e1.saveOk = e2.saveOk) :
    (convertPdfOnly e1 args fs0).res = (convertPdfOnly e2 args fs0).res := by
  simp only [convertPdfOnly]
  by_cases hv : (truthy (getArg args "read_file_path")
      && truthy (getArg args "write_folder_path")) = true
  · simp [hv, convertBody_res_congr _ _ _ htm hdl hpg hsk]
  · simp only [Bool.not_eq_true] at hv
    simp [hv]

theorem convertAndUploadPdf_res_congr {e1 e2 : Env} (args : List (String × String))
    (fs0 : List String)
    (htm : e1.tempName = e2.tempName) (hdl : e1.downloadOk = e2.downloadOk)
    (hpg : e1.pages = e2.pages) (hsk : e1.saveOk = e2.saveOk)
    (huk : e1.uploadOk = e2.uploadOk) :
    (convertAndUploadPdf e1 args fs0).res = (convertAndUploadPdf e2 args fs0).res := by
  simp only [convertAndUploadPdf]
  by_cases hv : (truthy (getArg args "read_file_path")
      && (truthy (getArg args "upload_url")
        && truthy (getArg args "write_folder_path"))) = true
  · simp [hv, uploadBody_res_congr _ _ _ _ _ _ htm hdl hpg hsk huk]
  · simp only [Bool.not_eq_true] at hv
    simp [hv]

theorem handle_call_tool_res_congr {e1 e2 : Env} (name : String)
    (args : List (String × String)) (fs0 : List String)
    (htm : e1.tempName = e2.tempName) (hdl : e1.downloadOk = e2.downloadOk)
    (hpg : e1.pages = e2.pages) (hsk : e1.saveOk = e2.saveOk)
    (huk : e1.uploadOk = e2.uploadOk) :
    (handle_call_tool e1 name args fs0).res = (handle_call_tool e2 name args fs0).res := by
  simp only [handle_call_tool]
  by_cases he : args.isEmpty = true
  · simp [he]
  · simp only [Bool.not_eq_true] at he
    by_cases h1 : (name == "pdf2png") = true
    · simp [he, h1, convertPdfOnly_res_congr _ _ htm hdl hpg hsk]
    · by_cases h2 : (name == "pdf2png_upload") = true
      · simp only [Bool.not_eq_true] at h1
        simp [he, h1, h2, convertAndUploadPdf_res_congr _ _ htm hdl hpg hsk huk]
      · simp only [Bool.not_eq_true] at h1 h2
        simp [he, h1, h2]

/-! ### Concrete fixtures used by the witnesses -/

/-- A benign environment: a 2-page document, the first upload succeeds and
the second fails, all filesystem operations succeed. -/
def envW : Env where
  tempName := "/tmp/tmp123.pdf"
  downloadOk := true
  pages := some 2
  saveOk := fun _ => true
  uploadOk := fun i => decide (i = 0)
  unlinkOk := fun _ => true

/-- The same environment with a document that rasterizes to zero pages. -/
def envW0 : Env := { envW with pages := some 0 }

def argsW : List (String × String) :=
  [("read_file_path", "/docs/in.pdf"), ("write_folder_path", "/out")]

def argsU : List (String × String) :=
  [("read_file_path", "/docs/in.pdf"), ("upload_url", "https://ex.com/up"),
    ("write_folder_path", "/out"), ("auth_username", "user"),
    ("auth_password", "pass")]

def argsUrl : List (String × String) :=
  [("read_file_path", "https://h.example/x.pdf"), ("upload_url", "https://ex.com/up"),
    ("write_folder_path", "/out"), ("auth_username", "user")]

/-- Upload arguments with a username but no password. -/
def argsU2 : List (String × String) :=
  [("read_file_path", "/docs/in.pdf"), ("upload_url", "https://ex.com/up"),
    ("write_folder_path", "/out"), ("auth_username", "user")]

/-! ### The claims -/

/-- C7: a request with an empty argument mapping, an unrecognized tool name,
or a required field missing (not truthy) raises an input-validation error
immediately: the filesystem is unchanged and the event trace is empty, so no
temp file, download, directory creation, write or upload happens. -/
theorem dispatcher_validation_no_side_effects (env : Env) (name : String)
    (args : List (String × String)) (fs0 : List String) :
    (args = [] → handle_call_tool env name args fs0 =
      ⟨Except.error Err.missingArguments, fs0, []⟩) ∧
    (args ≠ [] → name ≠ "pdf2png" → name ≠ "pdf2png_upload" →
      handle_call_tool env name args fs0 =
        ⟨Except.error (Err.unknownTool name), fs0, []⟩) ∧
    ((truthy (getArg args "read_file_path")
        && truthy (getArg args "write_folder_path")) = false → args ≠ [] →
      handle_call_tool env "pdf2png" args fs0 =
        ⟨Except.error Err.missingConvertFields, fs0, []⟩) ∧
    ((truthy (getArg args "read_file_path")
        && (truthy (getArg args "upload_url")
          && truthy (getArg args "write_folder_path"))) = false → args ≠ [] →
      handle_call_tool env "pdf2png_upload" args fs0 =
        ⟨Except.error Err.missingUploadFields, fs0, []⟩) := by
  refine ⟨?_, ?_, ?_, ?_⟩
  · rintro rfl
    rfl
  · intro h1 h2 h3
    simp [handle_call_tool, isEmpty_false_of_ne_nil h1, h2, h3]
  · intro hv hne
    rw [handle_call_tool_convert fs0 (isEmpty_false_of_ne_nil hne),
      convertPdfOnly_invalid fs0 hv]
  · intro hv hne
    rw [handle_call_tool_upload fs0 (isEmpty_false_of_ne_nil hne),
      convertAndUploadPdf_invalid fs0 hv]

/-- Witness for C7 at concrete inputs: the four validation failures. -/
theorem dispatcher_validation_no_side_effects_witness :
    handle_call_tool envW "pdf2png" ([] : List (String × String)) [] =
      ⟨Except.error Err.missingArguments, [], []⟩ ∧
    handle_call_tool envW "bogus" [("k", "v")] [] =
      ⟨Except.error (Err.unknownTool "bogus"), [], []⟩ ∧
    handle_call_tool envW "pdf2png" [("write_folder_path", "/out")] [] =
      ⟨Except.error Err.missingConvertFields, [], []⟩ ∧
    handle_call_tool envW "pdf2png_upload" argsW [] =
      ⟨Except.error Err.missingUploadFields, [], []⟩ := by
  refine ⟨?_, ?_, ?_, ?_⟩
  · exact (dispatcher_validation_no_side_effects envW "pdf2png" [] []).1 rfl
  · exact (dispatcher_validation_no_side_effects envW "bogus" [("k", "v")] []).2.1
      (by decide) (by decide) (by decide)
  · exact (dispatcher_validation_no_side_effects envW "pdf2png"
      [("write_folder_path", "/out")] []).2.2.1 rfl (by decide)
  · exact (dispatcher_validation_no_side_effects envW "pdf2png_upload"
      argsW []).2.2.2 rfl (by decide)

/-- C10: a required argument supplied as the empty string is rejected exactly
like a missing one: the handler raises the same missing-field validation
error, with the filesystem unchanged and no events. -/
theorem empty_string_field_like_missing (env : Env)
    (args : List (String × String)) (fs0 : List String) :
    (args ≠ [] →
      (getArg args "read_file_path" = some "" ∨
        getArg args "write_folder_path" = some "") →
      handle_call_tool env "pdf2png" args fs0 =
        ⟨Except.error Err.missingConvertFields, fs0, []⟩) ∧
    (args ≠ [] →
      (getArg args "read_file_path" = some "" ∨
        getArg args "upload_url" = some "" ∨
        getArg args "write_folder_path" = some "") →
      handle_call_tool env "pdf2png_upload" args fs0 =
        ⟨Except.error Err.missingUploadFields, fs0, []⟩) := by
  have hts : truthy (some "") = false := rfl
  refine ⟨?_, ?_⟩
  · intro hne hc
    rw [handle_call_tool_convert fs0 (isEmpty_false_of_ne_nil hne),
      convertPdfOnly_invalid fs0 ?_]
    rcases hc with h | h <;> simp [h, hts]
  · intro hne hc
    rw [handle_call_tool_upload fs0 (isEmpty_false_of_ne_nil hne),
      convertAndUploadPdf_invalid fs0 ?_]
    rcases hc with h | h | h <;> simp [h, hts]

/-- Witness for C10: empty-string `read_file_path` and empty-string
`upload_url` are rejected like missing fields. -/
theorem empty_string_field_like_missing_witness :
    handle_call_tool envW "pdf2png"
        [("read_file_path", ""), ("write_folder_path", "/out")] [] =
      ⟨Except.error Err.missingConvertFields, [], []⟩ ∧
    handle_call_tool envW "pdf2png_upload"
        [("read_file_path", "/a.pdf"), ("upload_url", ""),
          ("write_folder_path", "/out")] [] =
      ⟨Except.error Err.missingUploadFields, [], []⟩ :=
  ⟨(empty_string_field_like_missing envW _ []).1 (by decide) (Or.inl rfl),
    (empty_string_field_like_missing envW _ []).2 (by decide) (Or.inr (Or.inl rfl))⟩

/-- C9: the plain `pdf2png` tool treats zero rasterized pages as success:
the destination directory is created, no page file is written, and the
summary reports 0 PNG files instead of raising an error. -/
theorem convert_zero_pages_success (env : Env) (args : List (String × String))
    (fs0 : List String)
    (h1 : truthy (getArg args "read_file_path") = true)
    (h2 : truthy (getArg args "write_folder_path") = true)
    (hp : env.pages = some 0)
    (hdl : is_url ((getArg args "read_file_path").getD "") = true →
      env.downloadOk = true) :
    (convertPdfOnly env args fs0).res =
      Except.ok ("Successfully converted PDF to 0 PNG files in "
        ++ (getArg args "write_folder_path").getD "") ∧
    writesOf (convertPdfOnly env args fs0).events = [] ∧
    Event.mkdirDir ((getArg args "write_folder_path").getD "") ∈
      (convertPdfOnly env args fs0).events := by
  rw [convertPdfOnly_valid fs0 h1 h2]
  by_cases hurl : is_url ((getArg args "read_file_path").getD "") = true
  · rw [convertBody_url _ fs0 hurl (hdl hurl), finishConvert_zero _ _ _ _ hp]
    refine ⟨rfl, ?_, ?_⟩
    · rw [finallyWrap_events, writesOf_append,
        writesOf_of_unlink (fun e he => mem_cleanupTemp_events he)]
      simp [writesOf]
    · rw [finallyWrap_events]
      simp
  · simp only [Bool.not_eq_true] at hurl
    rw [convertBody_local _ fs0 hurl, finishConvert_zero _ _ _ _ hp]
    refine ⟨rfl, ?_, ?_⟩
    · rw [finallyWrap_events, writesOf_append,
        writesOf_of_unlink (fun e he => mem_cleanupTemp_events he)]
      simp [writesOf]
    · rw [finallyWrap_events]
      simp

/-- Witness for C9: a zero-page document through the plain tool. -/
theorem convert_zero_pages_success_witness :
    envW0.pages = some 0 ∧
    (convertPdfOnly envW0 argsW []).res =
      Except.ok "Successfully converted PDF to 0 PNG files in /out" ∧
    writesOf (convertPdfOnly envW0 argsW []).events = [] ∧
    Event.mkdirDir "/out" ∈ (convertPdfOnly envW0 argsW []).events := by
  have h := convert_zero_pages_success envW0 argsW [] rfl rfl rfl (fun _ => rfl)
  exact ⟨rfl, h.1, h.2.1, h.2.2⟩

/-- C6: with zero rasterized pages the `pdf2png_upload` tool raises a
conversion error ("No pages were generated from PDF"), attempts zero uploads
and writes no page files. -/
theorem upload_zero_pages_error (env : Env) (args : List (String × String))
    (fs0 : List String)
    (h1 : truthy (getArg args "read_file_path") = true)
    (h2 : truthy (getArg args "upload_url") = true)
    (h3 : truthy (getArg args "write_folder_path") = true)
    (hp : env.pages = some 0)
    (hdl : is_url ((getArg args "read_file_path").getD "") = true →
      env.downloadOk = true) :
    (convertAndUploadPdf env args fs0).res = Except.error Err.noPages ∧
    uploadPathsOf (convertAndUploadPdf env args fs0).events = [] ∧
    writesOf (convertAndUploadPdf env args fs0).events = [] := by
  rw [convertAndUploadPdf_valid fs0 h1 h2 h3]
  by_cases hurl : is_url ((getArg args "read_file_path").getD "") = true
  · rw [uploadBody_url _ _ _ _ fs0 hurl (hdl hurl),
      finishUpload_zero _ _ _ _ _ _ _ hp]
    refine ⟨rfl, ?_, ?_⟩
    · rw [finallyWrap_events, uploadPathsOf_append,
        uploadPathsOf_of_unlink (fun e he => mem_cleanupTemp_events he)]
      simp [uploadPathsOf]
    · rw [finallyWrap_events, writesOf_append,
        writesOf_of_unlink (fun e he => mem_cleanupTemp_events he)]
      simp [writesOf]
  · simp only [Bool.not_eq_true] at hurl
    rw [uploadBody_local _ _ _ _ fs0 hurl, finishUpload_zero _ _ _ _ _ _ _ hp]
    refine ⟨rfl, ?_, ?_⟩
    · rw [finallyWrap_events, uploadPathsOf_append,
        uploadPathsOf_of_unlink (fun e he => mem_cleanupTemp_events he)]
      simp [uploadPathsOf]
    · rw [finallyWrap_events, writesOf_append,
        writesOf_of_unlink (fun e he => mem_cleanupTemp_events he)]
      simp [writesOf]

/-- Witness for C6: a zero-page document through the upload tool. -/
theorem upload_zero_pages_error_witness :
    envW0.pages = some 0 ∧
    (convertAndUploadPdf envW0 argsU []).res = Except.error Err.noPages ∧
    uploadPathsOf (convertAndUploadPdf envW0 argsU []).events = [] ∧
    writesOf (convertAndUploadPdf envW0 argsU []).events = [] := by
  have h := upload_zero_pages_error envW0 argsU [] rfl rfl rfl rfl (fun _ => rfl)
  exact ⟨rfl, h.1, h.2.1, h.2.2⟩

/-- C1: for a valid local PDF with n pages, the `pdf2png` tool writes exactly
the n files page_1.png … page_n.png (1-based, in document order) into the
destination directory and returns the summary text. -/
theorem convert_writes_all_pages (env : Env) (args : List (String × String))
    (fs0 : List String) (n : Nat)
    (h1 : truthy (getArg args "read_file_path") = true)
    (h2 : truthy (getArg args "write_folder_path") = true)
    (hurl : is_url ((getArg args "read_file_path").getD "") = false)
    (hp : env.pages = some n)
    (hs : ∀ i, env.saveOk i = true) :
    (convertPdfOnly env args fs0).res =
      Except.ok ("Successfully converted PDF to " ++ toString n
        ++ " PNG files in " ++ (getArg args "write_folder_path").getD "") ∧
    writesOf (convertPdfOnly env args fs0).events =
      pageFiles ((getArg args "write_folder_path").getD "") n ∧
    (∀ p, p ∈ (convertPdfOnly env args fs0).fs ↔
      p ∈ fs0 ∨ p ∈ pageFiles ((getArg args "write_folder_path").getD "") n) := by
  rw [convertPdfOnly_valid fs0 h1 h2, convertBody_local _ fs0 hurl,
    finishConvert_ok _ _ _ _ hp hs]
  refine ⟨rfl, ?_, ?_⟩
  · rw [finallyWrap_events, writesOf_append,
      writesOf_of_unlink (fun e he => mem_cleanupTemp_events he)]
    simp [writesOf, saveEvs, writesOf_saveEvs, pageFiles]
  · intro p
    rw [finallyWrap_fs, cleanupTemp_none]
    simp [mem_addAll]

/-- Witness for C1: a 2-page local document. -/
theorem convert_writes_all_pages_witness :
    truthy (getArg argsW "read_file_path") = true ∧
    is_url "/docs/in.pdf" = false ∧
    (convertPdfOnly envW argsW []).res =
      Except.ok "Successfully converted PDF to 2 PNG files in /out" ∧
    writesOf (convertPdfOnly envW argsW []).events =
      ["/out/page_1.png", "/out/page_2.png"] ∧
    "/out/page_1.png" ∈ (convertPdfOnly envW argsW []).fs ∧
    "/out/page_2.png" ∈ (convertPdfOnly envW argsW []).fs := by
  have h := convert_writes_all_pages envW argsW [] 2 rfl rfl rfl rfl (fun i => rfl)
  refine ⟨rfl, rfl, h.1, h.2.1, ?_, ?_⟩
  · exact (h.2.2 "/out/page_1.png").mpr (Or.inr (by decide))
  · exact (h.2.2 "/out/page_2.png").mpr (Or.inr (by decide))

/-- C3: every upload attempt carries the Basic Authorization header, computed
as base64 of username:password, exactly when both credentials are supplied
and non-empty; otherwise no Authorization header is sent on any upload. -/
theorem upload_auth_header_iff (env : Env) (args : List (String × String))
    (fs0 : List String) (u p : String) (a : Option String) (ok : Bool)
    (he : Event.uploadPost u p a ok ∈ (convertAndUploadPdf env args fs0).events) :
    a = (if truthy (getArg args "auth_username")
          && truthy (getArg args "auth_password") then
        some ("Basic " ++ b64string ((getArg args "auth_username").getD ""
          ++ ":" ++ (getArg args "auth_password").getD ""))
      else none) := by
  by_cases hv : (truthy (getArg args "read_file_path")
      && (truthy (getArg args "upload_url")
        && truthy (getArg args "write_folder_path"))) = true
  · simp only [Bool.and_eq_true] at hv
    obtain ⟨hv1, hv2, hv3⟩ := hv
    rw [convertAndUploadPdf_valid fs0 hv1 hv2 hv3] at he
    have ha := (uploadBody_facts env _ _ _ _ _ fs0).1 u p a ok he
    rw [ha]
    rfl
  · simp only [Bool.not_eq_true] at hv
    rw [convertAndUploadPdf_invalid fs0 hv] at he
    simp at he

/-- Witness for C3: with username and password both supplied, the first
upload attempt carries the Basic header base64("user:pass"). -/
theorem upload_auth_header_iff_witness :
    Event.uploadPost "https://ex.com/up" "/out/page_1.png"
        (some ("Basic " ++ b64string "user:pass")) true ∈
      (convertAndUploadPdf envW argsU []).events ∧
    (some ("Basic " ++ b64string "user:pass") : Option String) =
      (if truthy (getArg argsU "auth_username")
          && truthy (getArg argsU "auth_password") then
        some ("Basic " ++ b64string ((getArg argsU "auth_username").getD ""
          ++ ":" ++ (getArg argsU "auth_password").getD ""))
      else none) := by
  have hmem : Event.uploadPost "https://ex.com/up" "/out/page_1.png"
      (some ("Basic " ++ b64string "user:pass")) true ∈
      (convertAndUploadPdf envW argsU []).events := by decide
  exact ⟨hmem, upload_auth_header_iff envW argsU [] _ _ _ _ hmem⟩

/-- C4: the `pdf2png_upload` summary says " with Basic Auth" based only on
auth_username being truthy: with a username supplied and no password, the
summary claims Basic Auth was used although no Authorization header was sent
on any upload attempt. -/
theorem upload_summary_auth_mismatch (env : Env) (args : List (String × String))
    (fs0 : List String) (n : Nat)
    (h1 : truthy (getArg args "read_file_path") = true)
    (h2 : truthy (getArg args "upload_url") = true)
    (h3 : truthy (getArg args "write_folder_path") = true)
    (hurl : is_url ((getArg args "read_file_path").getD "") = false)
    (hp : env.pages = some n) (hn : n ≠ 0)
    (hs : ∀ i, env.saveOk i = true)
    (hau : truthy (getArg args "auth_username") = true)
    (hap : truthy (getArg args "auth_password") = false) :
    (convertAndUploadPdf env args fs0).res =
      Except.ok ("Successfully converted PDF to " ++ toString n
        ++ " PNG files, uploaded " ++ toString (countUploads env 0 n)
        ++ " of them to " ++ (getArg args "upload_url").getD ""
        ++ " with Basic Auth" ++ ", and deleted local copies.") ∧
    (∀ u p a ok,
      Event.uploadPost u p a ok ∈ (convertAndUploadPdf env args fs0).events →
        a = none) := by
  refine ⟨?_, ?_⟩
  · rw [convertAndUploadPdf_valid fs0 h1 h2 h3, uploadBody_local _ _ _ _ fs0 hurl,
      finishUpload_ok _ _ _ _ _ _ _ hp hn hs, finallyWrap_res]
    simp [uploadMsg, hau]
  · intro u p a ok he
    rw [convertAndUploadPdf_valid fs0 h1 h2 h3] at he
    have ha := (uploadBody_facts env _ _ _ _ _ fs0).1 u p a ok he
    rw [ha, post_file_authorization]
    simp [hap]

/-- Witness for C4: username "user", password absent, 2 pages. -/
theorem upload_summary_auth_mismatch_witness :
    truthy (getArg argsU2 "auth_username") = true ∧
    getArg argsU2 "auth_password" = none ∧
    (convertAndUploadPdf envW argsU2 []).res =
      Except.ok ("Successfully converted PDF to 2 PNG files, uploaded 1 of"
        ++ " them to https://ex.com/up with Basic Auth, and deleted local copies.") ∧
    (∀ u p a ok,
      Event.uploadPost u p a ok ∈ (convertAndUploadPdf envW argsU2 []).events →
        a = none) := by
  have h := upload_summary_auth_mismatch envW argsU2 [] 2 rfl rfl rfl rfl rfl
    (by decide) (fun i => rfl) rfl rfl
  exact ⟨rfl, rfl, h.1, h.2⟩

/-- C2: with n produced pages, `pdf2png_upload` attempts exactly one upload
per page file, in order; per-file upload failures only lower the uploaded
count and are never escalated to a request-level error; and afterwards none
of the n page files exist in the destination directory, regardless of how
many uploads succeeded. -/
theorem upload_attempts_and_deletion (env : Env) (args : List (String × String))
    (fs0 : List String) (n : Nat)
    (h1 : truthy (getArg args "read_file_path") = true)
    (h2 : truthy (getArg args "upload_url") = true)
    (h3 : truthy (getArg args "write_folder_path") = true)
    (hdl : is_url ((getArg args "read_file_path").getD "") = true →
      env.downloadOk = true)
    (hp : env.pages = some n)
    (hs : ∀ i, env.saveOk i = true)
    (hu : ∀ p, env.unlinkOk p = true) :
    uploadPathsOf (convertAndUploadPdf env args fs0).events =
      pageFiles ((getArg args "write_folder_path").getD "") n ∧
    (∀ p ∈ pageFiles ((getArg args "write_folder_path").getD "") n,
      p ∉ (convertAndUploadPdf env args fs0).fs) ∧
    (n ≠ 0 → (convertAndUploadPdf env args fs0).res =
      Except.ok (uploadMsg n (countUploads env 0 n)
        ((getArg args "upload_url").getD "") (getArg args "auth_username"))) := by
  have hdel : ∀ (paths fsx : List String) (q : String),
      q ∈ (deletePngs env paths fsx).1 ↔ q ∈ fsx ∧ q ∉ paths :=
    fun paths fsx q => deletePngs_fst_mem fsx (fun r _ => hu r)
  have hct : ∀ (fsx : List String) (q : String),
      q ∈ (cleanupTemp env (some env.tempName) fsx).1 ↔
        q ∈ fsx ∧ q ≠ env.tempName :=
    fun fsx q => mem_cleanupTemp_some fsx (hu env.tempName)
  have hcu : ∀ (temp : Option String) (fsx : List String),
      uploadPathsOf (cleanupTemp env temp fsx).2 = [] :=
    fun temp fsx => uploadPathsOf_of_unlink (fun e he => mem_cleanupTemp_events he)
  rw [convertAndUploadPdf_valid fs0 h1 h2 h3]
  by_cases hn : n = 0
  · subst hn
    by_cases hurl : is_url ((getArg args "read_file_path").getD "") = true
    · rw [uploadBody_url _ _ _ _ fs0 hurl (hdl hurl),
        finishUpload_zero _ _ _ _ _ _ _ hp]
      refine ⟨?_, ?_, fun hc => absurd rfl hc⟩
      · rw [finallyWrap_events]
        simp [uploadPathsOf, uploadPathsOf_append, hcu, pageFiles]
      · simp [pageFiles]
    · simp only [Bool.not_eq_true] at hurl
      rw [uploadBody_local _ _ _ _ fs0 hurl, finishUpload_zero _ _ _ _ _ _ _ hp]
      refine ⟨?_, ?_, fun hc => absurd rfl hc⟩
      · rw [finallyWrap_events]
        simp [uploadPathsOf, uploadPathsOf_append, hcu, pageFiles]
      · simp [pageFiles]
  · by_cases hurl : is_url ((getArg args "read_file_path").getD "") = true
    · rw [uploadBody_url _ _ _ _ fs0 hurl (hdl hurl),
        finishUpload_ok _ _ _ _ _ _ _ hp hn hs]
      refine ⟨?_, ?_, fun _ => finallyWrap_res _ _ _ _ _⟩
      · rw [finallyWrap_events]
        simp [uploadPathsOf, uploadPathsOf_append, hcu, saveEvs,
          uploadPathsOf_saveEvs, uploadPathsOf_uploadEvs,
          uploadPathsOf_of_unlink (fun e he => mem_deletePngs_events he)]
      · intro p hpf
        rw [finallyWrap_fs]
        simp [hct, hdel, hpf]
    · simp only [Bool.not_eq_true] at hurl
      rw [uploadBody_local _ _ _ _ fs0 hurl, finishUpload_ok _ _ _ _ _ _ _ hp hn hs]
      refine ⟨?_, ?_, fun _ => finallyWrap_res _ _ _ _ _⟩
      · rw [finallyWrap_events]
        simp [uploadPathsOf, uploadPathsOf_append, hcu, saveEvs,
          uploadPathsOf_saveEvs, uploadPathsOf_uploadEvs,
          uploadPathsOf_of_unlink (fun e he => mem_deletePngs_events he)]
      · intro p hpf
        rw [finallyWrap_fs, cleanupTemp_none]
        simp [hdel, hpf]

/-- Witness for C2: 2 pages, first upload succeeds, second fails; both page
files are deleted and the call still succeeds reporting 1 of 2 uploaded. -/
theorem upload_attempts_and_deletion_witness :
    (∀ i, envW.saveOk i = true) ∧
    (∀ p, envW.unlinkOk p = true) ∧
    uploadPathsOf (convertAndUploadPdf envW argsU []).events =
      ["/out/page_1.png", "/out/page_2.png"] ∧
    "/out/page_1.png" ∉ (convertAndUploadPdf envW argsU []).fs ∧
    "/out/page_2.png" ∉ (convertAndUploadPdf envW argsU []).fs ∧
    (convertAndUploadPdf envW argsU []).res =
      Except.ok ("Successfully converted PDF to 2 PNG files, uploaded 1 of"
        ++ " them to https://ex.com/up with Basic Auth, and deleted local copies.") := by
  have h := upload_attempts_and_deletion envW argsU [] 2 rfl rfl rfl
    (fun _ => rfl) rfl (fun i => rfl) (fun p => rfl)
  refine ⟨fun i => rfl, fun p => rfl, h.1, ?_, ?_, ?_⟩
  · exact h.2.1 _ (by decide)
  · exact h.2.1 _ (by decide)
  · exact h.2.2 (by decide)

/-- C8: running the `pdf2png` tool twice with the same source into the same
destination directory writes the same file names both times and leaves the
same file set: the deterministic page naming overwrites, nothing accumulates. -/
theorem convert_idempotent (env : Env) (args : List (String × String))
    (fs0 : List String) (n : Nat)
    (h1 : truthy (getArg args "read_file_path") = true)
    (h2 : truthy (getArg args "write_folder_path") = true)
    (hdl : env.downloadOk = true)
    (hp : env.pages = some n)
    (hs : ∀ i, env.saveOk i = true)
    (hu : ∀ p, env.unlinkOk p = true) :
    writesOf (convertPdfOnly env args (convertPdfOnly env args fs0).fs).events =
      writesOf (convertPdfOnly env args fs0).events ∧
    (∀ p, p ∈ (convertPdfOnly env args (convertPdfOnly env args fs0).fs).fs ↔
      p ∈ (convertPdfOnly env args fs0).fs) ∧
    (convertPdfOnly env args (convertPdfOnly env args fs0).fs).res =
      (convertPdfOnly env args fs0).res := by
  have hct : ∀ (fsx : List String) (q : String),
      q ∈ (cleanupTemp env (some env.tempName) fsx).1 ↔
        q ∈ fsx ∧ q ≠ env.tempName :=
    fun fsx q => mem_cleanupTemp_some fsx (hu env.tempName)
  have hcw : ∀ (temp : Option String) (fsx : List String),
      writesOf (cleanupTemp env temp fsx).2 = [] :=
    fun temp fsx => writesOf_of_unlink (fun e he => mem_cleanupTemp_events he)
  by_cases hurl : is_url ((getArg args "read_file_path").getD "") = true
  · rw [convertPdfOnly_valid fs0 h1 h2, convertBody_url _ fs0 hurl hdl,
      finishConvert_ok _ _ _ _ hp hs]
    rw [convertPdfOnly_valid _ h1 h2, convertBody_url _ _ hurl hdl,
      finishConvert_ok _ _ _ _ hp hs]
    refine ⟨?_, ?_, ?_⟩
    · have hwev : ∀ (a : List Event) (temp : Option String) (fsx : List String),
          writesOf (a ++ (cleanupTemp env temp fsx).2) = writesOf a := by
        intro a temp fsx
        rw [writesOf_append, hcw, List.append_nil]
      simp only [finallyWrap_events, hwev]
    · intro p
      simp only [finallyWrap_fs, hct, mem_addAll, mem_fsAdd]
      by_cases hpt : p = env.tempName
      · simp [hpt]
      · simp only [hpt]
        tauto
    · rfl
  · simp only [Bool.not_eq_true] at hurl
    rw [convertPdfOnly_valid fs0 h1 h2, convertBody_local _ fs0 hurl,
      finishConvert_ok _ _ _ _ hp hs]
    rw [convertPdfOnly_valid _ h1 h2, convertBody_local _ _ hurl,
      finishConvert_ok _ _ _ _ hp hs]
    refine ⟨?_, ?_, ?_⟩
    · simp only [finallyWrap_events, cleanupTemp_none]
    · intro p
      simp only [finallyWrap_fs, cleanupTemp_none, mem_addAll]
      tauto
    · rfl

/-- Witness for C8: the 2-page local document converted twice into /out. -/
theorem convert_idempotent_witness :
    (∀ p, envW.unlinkOk p = true) ∧
    writesOf (convertPdfOnly envW argsW (convertPdfOnly envW argsW []).fs).events =
      writesOf (convertPdfOnly envW argsW []).events ∧
    (∀ p, p ∈ (convertPdfOnly envW argsW (convertPdfOnly envW argsW []).fs).fs ↔
      p ∈ (convertPdfOnly envW argsW []).fs) ∧
    (convertPdfOnly envW argsW (convertPdfOnly envW argsW []).fs).res =
      (convertPdfOnly envW argsW []).res := by
  have h := convert_idempotent envW argsW [] 2 rfl rfl rfl rfl
    (fun i => rfl) (fun p => rfl)
  exact ⟨fun p => rfl, h.1, h.2.1, h.2.2⟩

/-- C5: for a request whose source is an http(s) URL (with its required
fields present), exactly one temporary download file is created; after the
call returns, on every path, the temp file no longer exists provided its
deletion succeeds; and `os.unlink` outcomes never change the reported
outcome. -/
theorem url_temp_file_lifecycle (env : Env) (name : String)
    (args : List (String × String)) (fs0 : List String)
    (hname : name = "pdf2png" ∨ name = "pdf2png_upload")
    (h1 : truthy (getArg args "read_file_path") = true)
    (h2 : truthy (getArg args "write_folder_path") = true)
    (h3 : name = "pdf2png_upload" → truthy (getArg args "upload_url") = true)
    (hurl : is_url ((getArg args "read_file_path").getD "") = true)
    (hunl : env.unlinkOk env.tempName = true) :
    tempCreatesOf (handle_call_tool env name args fs0).events = [env.tempName] ∧
    env.tempName ∉ (handle_call_tool env name args fs0).fs ∧
    (∀ f : String → Bool,
      (handle_call_tool { env with unlinkOk := f } name args fs0).res =
        (handle_call_tool env name args fs0).res) := by
  have hne : args.isEmpty = false := truthy_getArg_isEmpty_false h1
  have hres : ∀ f : String → Bool,
      (handle_call_tool { env with unlinkOk := f } name args fs0).res =
        (handle_call_tool env name args fs0).res :=
    fun f => handle_call_tool_res_congr name args fs0 rfl rfl rfl rfl rfl
  rcases hname with rfl | rfl
  · obtain ⟨htc, hfs⟩ := convertBody_facts env
      ((getArg args "read_file_path").getD "")
      ((getArg args "write_folder_path").getD "") fs0
    refine ⟨?_, ?_, hres⟩
    · rw [handle_call_tool_convert fs0 hne, convertPdfOnly_valid fs0 h1 h2]
      exact htc hurl
    · rw [handle_call_tool_convert fs0 hne, convertPdfOnly_valid fs0 h1 h2]
      exact hfs hurl hunl
  · obtain ⟨_, htc, hfs⟩ := uploadBody_facts env
      ((getArg args "read_file_path").getD "")
      ((getArg args "upload_url").getD "")
      ((getArg args "write_folder_path").getD "")
      (getArg args "auth_username") (getArg args "auth_password") fs0
    refine ⟨?_, ?_, hres⟩
    · rw [handle_call_tool_upload fs0 hne,
        convertAndUploadPdf_valid fs0 h1 (h3 rfl) h2]
      exact htc hurl
    · rw [handle_call_tool_upload fs0 hne,
        convertAndUploadPdf_valid fs0 h1 (h3 rfl) h2]
      exact hfs hurl hunl

/-- Witness for C5: a URL source through the upload tool; the temp file
\/tmp\/tmp123.pdf is created once and absent afterwards. -/
theorem url_temp_file_lifecycle_witness :
    is_url "https://h.example/x.pdf" = true ∧
    envW.unlinkOk envW.tempName = true ∧
    tempCreatesOf (handle_call_tool envW "pdf2png_upload" argsUrl []).events =
      ["/tmp/tmp123.pdf"] ∧
    "/tmp/tmp123.pdf" ∉ (handle_call_tool envW "pdf2png_upload" argsUrl []).fs ∧
    (∀ f : String → Bool,
      (handle_call_tool { envW with unlinkOk := f } "pdf2png_upload" argsUrl []).res =
        (handle_call_tool envW "pdf2png_upload" argsUrl []).res) := by
  have h := url_temp_file_lifecycle envW "pdf2png_upload" argsUrl []
    (Or.inr rfl) rfl rfl (fun _ => rfl) rfl rfl
  exact ⟨rfl, rfl, h.1, h.2.1, h.2.2⟩

end Pdf2png
